import Mathlib

/-!
Shallow embedding of the `zed-extensions/swift` extension
(`src/swift.rs` and `src/language_server.rs`).

The embedding models the three logic-bearing components of the
extension:

* binary resolution for the `sourcekit-lsp` language server
  (`SourceKitLsp.language_server_binary` / `language_server_command`);
* code-label synthesis for completions and symbols
  (`SourceKitLsp.label_for_completion` / `label_for_symbol`);
* debug-configuration translation (`SwiftExtension.get_dap_binary`,
  `dap_request_kind`, `dap_config_to_scenario`).

Host collaborators (the worktree and the settings store) are modelled as
explicit records of pure functions.  JSON values (`serde_json::Value`)
are modelled by the inductive `Json`; the serialized configuration
strings the Rust code passes around are represented by the `Json` values
they serialize, since `serde_json::to_string` / `from_str` round-trip at
the value level.  String positions are measured in characters rather
than UTF-8 bytes; every range fact proved below is measure-independent
(each bound is of the shape `|prefix| ≤ |prefix| + |rest|`).
-/

namespace SwiftExt

/-- Model of `serde_json::Value`. -/
inductive Json where
  | null : Json
  | bool (b : Bool) : Json
  | num (n : Int) : Json
  | str (s : String) : Json
  | arr (elems : List Json) : Json
  | obj (fields : List (String × Json)) : Json

/-- `serde_json::Value::get(key)`: field lookup on objects, `None` on
every other variant. -/
def Json.get : Json → String → Option Json
  | .obj fields, key => fields.lookup key
  | _, _ => none

/-- `impl PartialEq<str> for serde_json::Value`: a value equals a string
slice exactly when it is a JSON string with that content. -/
def Json.eqStr : Json → String → Bool
  | .str s, t => s = t
  | _, _ => false

/-- Rust `{s:?}` debug formatting of a string: quoted.  (Escaping of the
content is elided; no claim depends on the rendering of exotic
strings.) -/
def strDebugRepr (s : String) : String :=
  "\"" ++ s ++ "\""

mutual

/-- `{value:?}` debug formatting of a `serde_json::Value`
(`Null` / `Bool(_)` / `Number(_)` / `String(_)` / `Array [..]` /
`Object {..}`). -/
def Json.debugRepr : Json → String
  | .null => "Null"
  | .bool b => "Bool(" ++ (if b then "true" else "false") ++ ")"
  | .num n => "Number(" ++ toString n ++ ")"
  | .str s => "String(" ++ strDebugRepr s ++ ")"
  | .arr elems => "Array [" ++ Json.debugReprList elems ++ "]"
  | .obj fields => "Object \x7b" ++ Json.debugReprObj fields ++ "\x7d"

/-- Comma-separated debug rendering of a JSON array's elements. -/
def Json.debugReprList : List Json → String
  | [] => ""
  | [v] => v.debugRepr
  | v :: rest => v.debugRepr ++ ", " ++ Json.debugReprList rest

/-- Comma-separated debug rendering of a JSON object's fields. -/
def Json.debugReprObj : List (String × Json) → String
  | [] => ""
  | [(k, v)] => strDebugRepr k ++ ": " ++ v.debugRepr
  | (k, v) :: rest => strDebugRepr k ++ ": " ++ v.debugRepr ++ ", " ++ Json.debugReprObj rest

end

/-- Index of the first occurrence of a character in a list
(`str::find` on the character sequence). -/
def charFind : List Char → Char → Option Nat
  | [], _ => none
  | a :: rest, c => if a = c then some 0 else (charFind rest c).map (· + 1)

/-- `str::find(char)`: position of the first occurrence of `c` in `s`. -/
def strFind (s : String) (c : Char) : Option Nat :=
  charFind s.data c

theorem charFind_lt {l : List Char} {c : Char} {i : Nat}
    (h : charFind l c = some i) : i < l.length := by
  induction l generalizing i with
  | nil => simp [charFind] at h
  | cons a rest ih =>
    simp only [charFind] at h
    split at h
    · cases h
      simp
    · cases hrec : charFind rest c with
      | none => simp [hrec] at h
      | some j =>
        simp only [hrec, Option.map_some] at h
        cases h
        have := ih hrec
        simp only [List.length_cons]
        omega

theorem strFind_lt {s : String} {c : Char} {i : Nat}
    (h : strFind s c = some i) : i < s.length :=
  charFind_lt h

/-- `zed::settings::BinarySettings` (the fields the extension reads). -/
structure BinarySettings where
  path : Option String
  arguments : Option (List String)

/-- `zed::settings::LspSettings` (the fields the extension reads). -/
structure LspSettings where
  binary : Option BinarySettings
  initialization_options : Option Json

/-- The host worktree collaborator together with its settings store:
`LspSettings::for_worktree`, `which`, `shell_env`, `root_path`. -/
structure Worktree where
  lsp_settings : String → Except String LspSettings
  which : String → Option String
  shell_env : List (String × String)
  root_path : String

/-- `language_server.rs`: `LanguageServerBinary`. -/
structure LanguageServerBinary where
  path : String
  args : Option (List String)

/-- `zed::Command`. -/
structure Command where
  command : String
  args : List String
  env : List (String × String)

/-- `language_server.rs`: the field-less `SourceKitLsp` component. -/
structure SourceKitLsp where

/-- `SourceKitLsp::SERVER_ID`. -/
def SourceKitLsp.SERVER_ID : String := "sourcekit-lsp"

/-- `SourceKitLsp::new`. -/
def SourceKitLsp.new : SourceKitLsp := ⟨⟩

/-- `SourceKitLsp::get_executable_args`. -/
def SourceKitLsp.get_executable_args : List String := []

/-- `SourceKitLsp::language_server_binary`: explicit settings path,
then worktree `which` lookup, then the hard-coded `xcrun` fallback. -/
def SourceKitLsp.language_server_binary (language_server_id : String)
    (worktree : Worktree) : Except String LanguageServerBinary :=
  match worktree.lsp_settings language_server_id with
  | .error e => .error e
  | .ok lsp_settings =>
    let from_settings : Option LanguageServerBinary :=
      match lsp_settings.binary with
      | some binary_settings =>
        binary_settings.path.map fun path =>
          { path, args := binary_settings.arguments }
      | none => none
    match from_settings with
    | some binary => .ok binary
    | none =>
      match worktree.which SourceKitLsp.SERVER_ID with
      | some path => .ok { path, args := some SourceKitLsp.get_executable_args }
      | none =>
        .ok { path := "/usr/bin/xcrun", args := some [SourceKitLsp.SERVER_ID] }

/-- `SourceKitLsp::language_server_command`: wraps the resolved binary
into a command, defaulting absent arguments and attaching the
worktree's shell environment. -/
def SourceKitLsp.language_server_command (language_server_id : String)
    (worktree : Worktree) : Except String Command :=
  match SourceKitLsp.language_server_binary language_server_id worktree with
  | .error e => .error e
  | .ok binary =>
    .ok { command := binary.path,
          args := binary.args.getD SourceKitLsp.get_executable_args,
          env := worktree.shell_env }

/-- LSP completion-item kinds (`zed_extension_api::lsp::CompletionKind`). -/
inductive CompletionKind where
  | Text | Method | Function | Constructor | Field | Variable
  | Class | Interface | Module | Property | Unit | Value
  | Enum | Keyword | Snippet | Color | File | Reference
  | Folder | EnumMember | Constant | Struct | Event | Operator
  | TypeParameter

/-- `zed_extension_api::lsp::Completion` restricted to the fields the
extension reads (`label`, `kind`, `detail`). -/
structure Completion where
  label : String
  kind : Option CompletionKind
  detail : Option String

/-- `zed_extension_api::CodeLabelSpan`: either a range into the
synthesized code or a literal run of text with an optional highlight
name.  Ranges are pairs `(start, stop)`. -/
inductive CodeLabelSpan where
  | code_range (range : Nat × Nat) : CodeLabelSpan
  | literal (text : String) (highlight_name : Option String) : CodeLabelSpan

/-- `zed_extension_api::CodeLabel`. -/
structure CodeLabel where
  code : String
  spans : List CodeLabelSpan
  filter_range : Nat × Nat

/-- `SourceKitLsp::label_for_completion`: per-kind synthesis of a
display snippet with highlight and filter ranges. -/
def SourceKitLsp.label_for_completion (_lsp : SourceKitLsp)
    (completion : Completion) : Option CodeLabel :=
  match completion.kind with
  | none => none
  | some kind =>
    match kind with
    | .Class | .Enum | .Interface | .Keyword | .Module | .Struct =>
      -- the Rust arm reads `completion.kind?` a second time
      match completion.kind with
      | none => none
      | some kind2 =>
        let highlight_name : Option String :=
          match kind2 with
          | .Class | .Interface | .Enum | .Struct => some "type"
          | .Keyword => some "keyword"
          | _ => none
        some { code := "",
               filter_range := (0, completion.label.length),
               spans := [CodeLabelSpan.literal completion.label highlight_name] }
    | .EnumMember =>
      let start := "enum Enum \x7b case "
      let code := start ++ completion.label ++ " \x7d"
      some { code,
             spans := [CodeLabelSpan.code_range
               (start.length, start.length + completion.label.length)],
             filter_range :=
               (0, (strFind completion.label '(').getD completion.label.length) }
    | .Function =>
      let func := "func "
      let return_type : String :=
        match completion.detail with
        | some detail => if detail.isEmpty then "" else " -> " ++ detail
        | none => ""
      let before_braces := func ++ completion.label ++ return_type
      let code := before_braces ++ " \x7b\x7d"
      match strFind completion.label '(' with
      | none => none
      | some paren =>
        some { code,
               spans := [CodeLabelSpan.code_range (func.length, before_braces.length)],
               filter_range := (0, paren) }
    | .TypeParameter =>
      match completion.detail with
      | none => none
      | some detail =>
        let typealias := "typealias "
        let code := typealias ++ completion.label ++ " = " ++ detail
        some { spans := [CodeLabelSpan.code_range (typealias.length, code.length)],
               code,
               filter_range := (0, completion.label.length) }
    | .Value =>
      let type : String :=
        match completion.detail with
        | some detail => if detail.isEmpty then "" else ": " ++ detail
        | none => ""
      let var := "var variable" ++ type ++ " = "
      let code := var ++ completion.label
      some { spans := [CodeLabelSpan.code_range (var.length, code.length)],
             code,
             filter_range := (0, completion.label.length) }
    | .Variable =>
      match completion.detail with
      | none => none
      | some detail =>
        let var := "var "
        let code := var ++ completion.label ++ ": " ++ detail
        some { spans := [CodeLabelSpan.code_range (var.length, code.length)],
               code,
               filter_range := (0, completion.label.length) }
    | _ => none

/-- LSP symbol kinds (`zed_extension_api::lsp::SymbolKind`). -/
inductive SymbolKind where
  | File | Module | Namespace | Package | Class | Method
  | Property | Field | Constructor | Enum | Interface | Function
  | Variable | Constant | String | Number | Boolean | Array
  | Object | Key | Null | EnumMember | Struct | Event
  | Operator | TypeParameter

/-- `zed_extension_api::lsp::Symbol` restricted to the fields the
extension reads (`kind`, `name`). -/
structure Symbol where
  kind : SymbolKind
  name : String

/-- `SourceKitLsp::label_for_symbol`: fixed per-kind templates. -/
def SourceKitLsp.label_for_symbol (_lsp : SourceKitLsp)
    (symbol : Symbol) : Option CodeLabel :=
  match symbol.kind with
  | .Method | .Function =>
    let code := "func " ++ symbol.name
    some { code,
           spans := [CodeLabelSpan.code_range (0, code.length)],
           filter_range := (0, symbol.name.length) }
  | .Variable | .Constant =>
    let code := "var/let " ++ symbol.name
    some { code,
           spans := [CodeLabelSpan.code_range (0, code.length)],
           filter_range := (0, symbol.name.length) }
  | .Class =>
    let code := "class " ++ symbol.name
    some { code,
           spans := [CodeLabelSpan.code_range (0, code.length)],
           filter_range := (0, symbol.name.length) }
  | .Struct =>
    let code := "struct " ++ symbol.name
    some { code,
           spans := [CodeLabelSpan.code_range (0, code.length)],
           filter_range := (0, symbol.name.length) }
  | .Enum =>
    let code := "enum " ++ symbol.name
    some { code,
           spans := [CodeLabelSpan.code_range (0, code.length)],
           filter_range := (0, symbol.name.length) }
  | _ => none

/-- `swift.rs`: `SwiftDebugConfig`, the serde model of the adapter
configuration.  Serde attributes: `rename_all = "camelCase"`, every
field except `request` is `#[serde(default)]`, and `cwd` / `program` /
`pid` / `stop_on_entry` are skipped on serialization when `None`.
`env` is a `HashMap<String, String>`, modelled as an association
list. -/
structure SwiftDebugConfig where
  cwd : Option String
  env : List (String × String)
  program : Option String
  pid : Option Nat
  request : String
  stop_on_entry : Option Bool

/-- `serde_json::to_string(&SwiftDebugConfig)` at the value level:
fields in declaration order, `None` optionals omitted, `env` always
present. -/
def SwiftDebugConfig.toJson (c : SwiftDebugConfig) : Json :=
  Json.obj
    ((match c.cwd with
      | some cwd => [("cwd", Json.str cwd)]
      | none => []) ++
     [("env", Json.obj (c.env.map fun kv => (kv.1, Json.str kv.2)))] ++
     (match c.program with
      | some program => [("program", Json.str program)]
      | none => []) ++
     (match c.pid with
      | some pid => [("pid", Json.num (Int.ofNat pid))]
      | none => []) ++
     [("request", Json.str c.request)] ++
     (match c.stop_on_entry with
      | some stop => [("stopOnEntry", Json.bool stop)]
      | none => []))

/-- Decode an optional string field (`Option<String>`, serde default):
absent or `null` is `None`, a string is `Some`, anything else is a type
error. -/
def optStringField (fields : List (String × Json)) (key : String) :
    Except String (Option String) :=
  match fields.lookup key with
  | none => .ok none
  | some Json.null => .ok none
  | some (Json.str s) => .ok (some s)
  | some _ => .error ("invalid type for field `" ++ key ++ "`")

/-- Decode the `env` field (`HashMap<String, String>`, serde default):
absent is the empty map, an object of strings decodes entry-wise,
anything else is a type error. -/
def envField (fields : List (String × Json)) :
    Except String (List (String × String)) :=
  match fields.lookup "env" with
  | none => .ok []
  | some (Json.obj entries) =>
    entries.mapM fun kv =>
      match kv.2 with
      | Json.str s => .ok (kv.1, s)
      | _ => .error "invalid type for field `env`"
  | some _ => .error "invalid type for field `env`"

/-- Decode the `pid` field (`Option<u32>`, serde default): absent or
`null` is `None`, an in-range integer is `Some`, anything else is a
type error. -/
def pidField (fields : List (String × Json)) : Except String (Option Nat) :=
  match fields.lookup "pid" with
  | none => .ok none
  | some Json.null => .ok none
  | some (Json.num n) =>
    if 0 ≤ n ∧ n < 4294967296 then .ok (some n.toNat)
    else .error "invalid value for field `pid`"
  | some _ => .error "invalid type for field `pid`"

/-- Decode the required `request` field (`String`). -/
def requestField (fields : List (String × Json)) : Except String String :=
  match fields.lookup "request" with
  | none => .error "missing field `request`"
  | some (Json.str s) => .ok s
  | some _ => .error "invalid type for field `request`"

/-- Decode the `stopOnEntry` field (`Option<bool>`, serde default). -/
def stopOnEntryField (fields : List (String × Json)) :
    Except String (Option Bool) :=
  match fields.lookup "stopOnEntry" with
  | none => .ok none
  | some Json.null => .ok none
  | some (Json.bool b) => .ok (some b)
  | some _ => .error "invalid type for field `stopOnEntry`"

/-- `serde_json::from_str::<SwiftDebugConfig>` at the value level:
requires a JSON object, ignores unknown fields, defaults every field
but the required `request`.  (serde's duplicate-key error is elided:
the lookups read the first occurrence of each key.) -/
def SwiftDebugConfig.fromJson : Json → Except String SwiftDebugConfig
  | Json.obj fields => do
    let cwd ← optStringField fields "cwd"
    let env ← envField fields
    let program ← optStringField fields "program"
    let pid ← pidField fields
    let request ← requestField fields
    let stop_on_entry ← stopOnEntryField fields
    pure { cwd, env, program, pid, request, stop_on_entry }
  | _ => .error "invalid type: expected a map"

/-- `zed_extension_api::StartDebuggingRequestArgumentsRequest`. -/
inductive StartDebuggingRequestArgumentsRequest where
  | launch
  | attach

/-- `zed_extension_api::StartDebuggingRequestArguments`.  The Rust
`configuration` field holds the serialized configuration text; it is
modelled by the `Json` value it serializes. -/
structure StartDebuggingRequestArguments where
  configuration : Json
  request : StartDebuggingRequestArgumentsRequest

/-- `zed_extension_api::DebugAdapterBinary` (the `connection` field,
always `None` here, is modelled as `Option Unit`). -/
structure DebugAdapterBinary where
  command : Option String
  arguments : List String
  envs : List (String × String)
  cwd : Option String
  connection : Option Unit
  request_args : StartDebuggingRequestArguments

/-- `zed_extension_api::LaunchRequest` (fields the extension reads). -/
structure LaunchRequest where
  program : String
  cwd : Option String
  envs : List (String × String)

/-- `zed_extension_api::AttachRequest`. -/
structure AttachRequest where
  process_id : Option Nat

/-- `zed_extension_api::DebugRequest`. -/
inductive DebugRequest where
  | launch (l : LaunchRequest)
  | attach (a : AttachRequest)

/-- `zed_extension_api::DebugConfig`. -/
structure DebugConfig where
  adapter : String
  label : String
  request : DebugRequest
  stop_on_entry : Option Bool

/-- `zed_extension_api::DebugScenario` (the `config` string is modelled
by the `Json` value it serializes; `tcp_connection` and `build`, always
`None` here, are modelled as `Option Unit`). -/
structure DebugScenario where
  adapter : String
  label : String
  config : Json
  tcp_connection : Option Unit
  build : Option Unit

/-- `swift.rs`: the extension state — the lazily created
`SourceKitLsp` instance. -/
structure SwiftExtension where
  sourcekit_lsp : Option SourceKitLsp

/-- `SwiftExtension::ADAPTER_NAME`. -/
def SwiftExtension.ADAPTER_NAME : String := "Swift"

/-- `<SwiftExtension as Extension>::new` (`Default`): no language
server instantiated yet. -/
def SwiftExtension.new : SwiftExtension := { sourcekit_lsp := none }

/-- Facade `label_for_completion`: dispatch on the server identifier,
then delegate to the lazily created `SourceKitLsp` if present. -/
def SwiftExtension.label_for_completion (ext : SwiftExtension)
    (language_server_id : String) (completion : Completion) : Option CodeLabel :=
  if language_server_id = SourceKitLsp.SERVER_ID then
    match ext.sourcekit_lsp with
    | none => none
    | some lsp => lsp.label_for_completion completion
  else none

/-- Facade `label_for_symbol`: dispatch on the server identifier, then
delegate to the lazily created `SourceKitLsp` if present. -/
def SwiftExtension.label_for_symbol (ext : SwiftExtension)
    (language_server_id : String) (symbol : Symbol) : Option CodeLabel :=
  if language_server_id = SourceKitLsp.SERVER_ID then
    match ext.sourcekit_lsp with
    | none => none
    | some lsp => lsp.label_for_symbol symbol
  else none

/-- `SwiftExtension::get_dap_binary`: adapter-name check, configuration
parse, request classification, then the four-tier command chain
(user-provided path, `swiftly run lldb-dap`, `xcrun lldb-dap`, bare
`lldb-dap`). -/
def SwiftExtension.get_dap_binary (adapter_name : String) (config : Json)
    (user_provided_debug_adapter_path : Option String) (worktree : Worktree) :
    Except String DebugAdapterBinary :=
  if adapter_name ≠ SwiftExtension.ADAPTER_NAME then
    .error ("Cannot create binary for adapter: " ++ adapter_name)
  else
    let configuration := config
    match SwiftDebugConfig.fromJson config with
    | .error e => .error e
    | .ok cfg =>
      let requestE : Except String StartDebuggingRequestArgumentsRequest :=
        match cfg.request with
        | "launch" => .ok .launch
        | "attach" => .ok .attach
        | other =>
          .error ("Unexpected value for `request` key in Swift debug adapter configuration: "
            ++ strDebugRepr other)
      match requestE with
      | .error e => .error e
      | .ok request =>
        let chain : Option (String × List String) :=
          match user_provided_debug_adapter_path with
          | some path => some (path, [])
          | none =>
            match worktree.which "swiftly" with
            | some swiftly => some (swiftly, ["run", "lldb-dap"])
            | none =>
              match worktree.which "xcrun" with
              | some xcrun => some (xcrun, ["lldb-dap"])
              | none =>
                match worktree.which "lldb-dap" with
                | some lldb_dap => some (lldb_dap, [])
                | none => none
        match chain with
        | none => .error "Could not find lldb-dap"
        | some (command, arguments) =>
          .ok { command := some command,
                arguments,
                envs := cfg.env,
                cwd := some (cfg.cwd.getD worktree.root_path),
                connection := none,
                request_args := { configuration, request } }

/-- `SwiftExtension::dap_request_kind`: adapter-name check, then
classification of the `request` discriminator of the raw JSON value. -/
def SwiftExtension.dap_request_kind (adapter_name : String) (config : Json) :
    Except String StartDebuggingRequestArgumentsRequest :=
  if adapter_name ≠ SwiftExtension.ADAPTER_NAME then
    .error ("Cannot create binary for adapter: " ++ adapter_name)
  else
    match config.get "request" with
    | some value =>
      if value.eqStr "launch" then .ok .launch
      else if value.eqStr "attach" then .ok .attach
      else
        .error ("Unexpected value for `request` key in Swift debug adapter configuration: "
          ++ value.debugRepr)
    | none =>
      .error "Missing required `request` field in Swift debug adapter configuration"

/-- `SwiftExtension::dap_config_to_scenario`: serialize the host-native
launch or attach request into a `SwiftDebugConfig` configuration. -/
def SwiftExtension.dap_config_to_scenario (zed_scenario : DebugConfig) :
    Except String DebugScenario :=
  match zed_scenario.request with
  | .launch launch =>
    let config := SwiftDebugConfig.toJson
      { program := some launch.program,
        env := launch.envs,
        cwd := launch.cwd,
        request := "launch",
        pid := none,
        stop_on_entry := zed_scenario.stop_on_entry }
    .ok { adapter := zed_scenario.adapter,
          label := zed_scenario.label,
          config,
          tcp_connection := none,
          build := none }
  | .attach attach =>
    let config := SwiftDebugConfig.toJson
      { program := none,
        env := [],
        request := "attach",
        pid := attach.process_id,
        cwd := none,
        stop_on_entry := zed_scenario.stop_on_entry }
    .ok { adapter := zed_scenario.adapter,
          label := zed_scenario.label,
          build := none,
          config,
          tcp_connection := none }

/-- Helper: on adapter name `"Swift"`, once the configuration parses
and its `request` string is one of the two recognized values,
`get_dap_binary` is determined by the four-tier command chain. -/
theorem get_dap_binary_chain (config : Json) (user : Option String) (w : Worktree)
    (cfg : SwiftDebugConfig) (k : StartDebuggingRequestArgumentsRequest)
    (hp : SwiftDebugConfig.fromJson config = .ok cfg)
    (hk : cfg.request = "launch" ∧ k = .launch ∨ cfg.request = "attach" ∧ k = .attach) :
    SwiftExtension.get_dap_binary "Swift" config user w =
      match (match user with
             | some path => some (path, ([] : List String))
             | none =>
               match w.which "swiftly" with
               | some swiftly => some (swiftly, ["run", "lldb-dap"])
               | none =>
                 match w.which "xcrun" with
                 | some xcrun => some (xcrun, ["lldb-dap"])
                 | none =>
                   match w.which "lldb-dap" with
                   | some lldb_dap => some (lldb_dap, ([] : List String))
                   | none => none) with
      | none => .error "Could not find lldb-dap"
      | some (command, arguments) =>
        .ok { command := some command,
              arguments,
              envs := cfg.env,
              cwd := some (cfg.cwd.getD w.root_path),
              connection := none,
              request_args := { configuration := config, request := k } } := by
  unfold SwiftExtension.get_dap_binary
  rw [if_neg (by simp [SwiftExtension.ADAPTER_NAME]), hp]
  dsimp only
  rcases hk with ⟨h1, h2⟩ | ⟨h1, h2⟩ <;> subst h2 <;> rw [h1] <;> rfl

/-- C1: for adapter name `"Swift"`, `dap_request_kind` returns `Launch`
on a config whose `request` field is the string `"launch"`, `Attach` on
`"attach"`, an "Unexpected value" error on any other `request` value,
and a distinct "Missing required" error when the `request` field is
absent. -/
theorem c1_dap_request_kind_classification :
    (∀ config : Json, config.get "request" = some (Json.str "launch") →
      SwiftExtension.dap_request_kind "Swift" config =
        .ok StartDebuggingRequestArgumentsRequest.launch) ∧
    (∀ config : Json, config.get "request" = some (Json.str "attach") →
      SwiftExtension.dap_request_kind "Swift" config =
        .ok StartDebuggingRequestArgumentsRequest.attach) ∧
    (∀ (config value : Json), config.get "request" = some value →
      value.eqStr "launch" = false → value.eqStr "attach" = false →
      SwiftExtension.dap_request_kind "Swift" config =
        .error ("Unexpected value for `request` key in Swift debug adapter configuration: "
          ++ value.debugRepr)) ∧
    (∀ config : Json, config.get "request" = none →
      SwiftExtension.dap_request_kind "Swift" config =
        .error "Missing required `request` field in Swift debug adapter configuration") ∧
    (∀ value : Json,
      ("Unexpected value for `request` key in Swift debug adapter configuration: "
        ++ value.debugRepr) ≠
      "Missing required `request` field in Swift debug adapter configuration") := by
  refine ⟨?_, ?_, ?_, ?_, ?_⟩
  · intro config h
    simp [SwiftExtension.dap_request_kind, SwiftExtension.ADAPTER_NAME, h, Json.eqStr]
  · intro config h
    simp [SwiftExtension.dap_request_kind, SwiftExtension.ADAPTER_NAME, h, Json.eqStr]
  · intro config value h h1 h2
    simp [SwiftExtension.dap_request_kind, SwiftExtension.ADAPTER_NAME, h, h1, h2]
  · intro config h
    simp [SwiftExtension.dap_request_kind, SwiftExtension.ADAPTER_NAME, h]
  · intro value h
    have hlen := congrArg String.length h
    rw [String.length_append] at hlen
    have h73 :
        ("Unexpected value for `request` key in Swift debug adapter configuration: " :
          String).length = 73 := rfl
    have h69 :
        ("Missing required `request` field in Swift debug adapter configuration" :
          String).length = 69 := rfl
    rw [h73, h69] at hlen
    omega

/-- C1 witness: the four concrete behaviours at explicit configs. -/
theorem c1_dap_request_kind_classification_witness :
    SwiftExtension.dap_request_kind "Swift"
      (Json.obj [("request", Json.str "launch")]) =
      .ok StartDebuggingRequestArgumentsRequest.launch ∧
    SwiftExtension.dap_request_kind "Swift"
      (Json.obj [("request", Json.str "attach")]) =
      .ok StartDebuggingRequestArgumentsRequest.attach ∧
    SwiftExtension.dap_request_kind "Swift"
      (Json.obj [("request", Json.str "debug")]) =
      .error ("Unexpected value for `request` key in Swift debug adapter configuration: "
        ++ (Json.str "debug").debugRepr) ∧
    SwiftExtension.dap_request_kind "Swift" (Json.obj []) =
      .error "Missing required `request` field in Swift debug adapter configuration" ∧
    ("Unexpected value for `request` key in Swift debug adapter configuration: "
      ++ (Json.str "debug").debugRepr) ≠
    "Missing required `request` field in Swift debug adapter configuration" :=
  ⟨c1_dap_request_kind_classification.1 _ rfl,
   c1_dap_request_kind_classification.2.1 _ rfl,
   c1_dap_request_kind_classification.2.2.1 _ _ rfl rfl rfl,
   c1_dap_request_kind_classification.2.2.2.1 _ rfl,
   c1_dap_request_kind_classification.2.2.2.2 _⟩

/-- C2: classifying the configuration produced by
`dap_config_to_scenario` recovers the request kind — `Launch` for every
launch request, `Attach` for every attach request. -/
theorem c2_scenario_round_trip (z : DebugConfig) :
    ∃ s, SwiftExtension.dap_config_to_scenario z = .ok s ∧
      SwiftExtension.dap_request_kind "Swift" s.config =
        .ok (match z.request with
             | .launch _ => StartDebuggingRequestArgumentsRequest.launch
             | .attach _ => StartDebuggingRequestArgumentsRequest.attach) := by
  obtain ⟨adapter, label, request, stop_on_entry⟩ := z
  cases request with
  | launch l =>
    obtain ⟨program, cwd, envs⟩ := l
    cases cwd <;> cases stop_on_entry <;> exact ⟨_, rfl, rfl⟩
  | attach a =>
    obtain ⟨process_id⟩ := a
    cases process_id <;> cases stop_on_entry <;> exact ⟨_, rfl, rfl⟩

/-- C9: the configuration serialized by `dap_config_to_scenario`
carries the discriminator agreeing with the variant; an attach
configuration has no `program` and no `cwd` key, carries `pid` and
`stopOnEntry` exactly when given, and an empty `env`; a launch
configuration always carries `program`. -/
theorem c9_scenario_config_shape (z : DebugConfig) :
    ∃ s, SwiftExtension.dap_config_to_scenario z = .ok s ∧
      (match z.request with
       | .launch l =>
         s.config.get "request" = some (Json.str "launch") ∧
         s.config.get "program" = some (Json.str l.program)
       | .attach a =>
         s.config.get "request" = some (Json.str "attach") ∧
         s.config.get "program" = none ∧
         s.config.get "cwd" = none ∧
         s.config.get "pid" = a.process_id.map (fun n => Json.num (Int.ofNat n)) ∧
         s.config.get "stopOnEntry" = z.stop_on_entry.map Json.bool ∧
         s.config.get "env" = some (Json.obj [])) := by
  obtain ⟨adapter, label, request, stop_on_entry⟩ := z
  cases request with
  | launch l =>
    obtain ⟨program, cwd, envs⟩ := l
    cases cwd <;> cases stop_on_entry <;> exact ⟨_, rfl, rfl, rfl⟩
  | attach a =>
    obtain ⟨process_id⟩ := a
    cases process_id <;> cases stop_on_entry <;>
      exact ⟨_, rfl, rfl, rfl, rfl, rfl, rfl, rfl⟩

/-- C10: on a freshly constructed extension (no `SourceKitLsp` instance
yet), `label_for_completion` and `label_for_symbol` return no label for
every input, including for the recognized `"sourcekit-lsp"`
identifier. -/
theorem c10_labels_absent_before_instantiation (language_server_id : String)
    (completion : Completion) (symbol : Symbol) :
    SwiftExtension.new.label_for_completion language_server_id completion = none ∧
    SwiftExtension.new.label_for_symbol language_server_id symbol = none := by
  constructor <;>
    simp [SwiftExtension.new, SwiftExtension.label_for_completion,
      SwiftExtension.label_for_symbol]

/-- A worktree whose lookup finds only `swiftly`, with empty settings. -/
def w3 : Worktree :=
  { lsp_settings := fun _ => .ok { binary := none, initialization_options := none },
    which := fun name => if name = "swiftly" then some "/usr/local/bin/swiftly" else none,
    shell_env := [],
    root_path := "/work" }

/-- C3 counterexample: a launch configuration with no `program` field
resolves successfully — `get_dap_binary` raises no translation error
for the missing field. -/
theorem c3_counterexample :
    SwiftExtension.get_dap_binary "Swift"
      (Json.obj [("request", Json.str "launch")]) none w3 =
      .ok { command := some "/usr/local/bin/swiftly",
            arguments := ["run", "lldb-dap"],
            envs := [],
            cwd := some "/work",
            connection := none,
            request_args :=
              { configuration := Json.obj [("request", Json.str "launch")],
                request := StartDebuggingRequestArgumentsRequest.launch } } := rfl

/-- C3 (amended): a launch configuration with no `program` field is not
a translation error: `program` deserializes to `none` (no path value is
defaulted in), and `get_dap_binary` succeeds whenever some tier of the
command chain produces a command. -/
theorem c3_launch_without_program_resolves (user : Option String) (w : Worktree)
    (h : user ≠ none ∨ w.which "swiftly" ≠ none ∨ w.which "xcrun" ≠ none ∨
      w.which "lldb-dap" ≠ none) :
    SwiftDebugConfig.fromJson (Json.obj [("request", Json.str "launch")]) =
      .ok { cwd := none, env := [], program := none, pid := none,
            request := "launch", stop_on_entry := none } ∧
    ∃ b, SwiftExtension.get_dap_binary "Swift"
      (Json.obj [("request", Json.str "launch")]) user w = .ok b := by
  refine ⟨rfl, ?_⟩
  rw [get_dap_binary_chain (Json.obj [("request", Json.str "launch")]) user w
    { cwd := none, env := [], program := none, pid := none,
      request := "launch", stop_on_entry := none }
    StartDebuggingRequestArgumentsRequest.launch rfl (Or.inl ⟨rfl, rfl⟩)]
  cases user with
  | some path => exact ⟨_, rfl⟩
  | none =>
    cases hs : w.which "swiftly" with
    | some swiftly => exact ⟨_, rfl⟩
    | none =>
      cases hx : w.which "xcrun" with
      | some xcrun => exact ⟨_, rfl⟩
      | none =>
        cases hl : w.which "lldb-dap" with
        | some lldb_dap => exact ⟨_, rfl⟩
        | none => simp [hs, hx, hl] at h

/-- C3 witness: the concrete worktree `w3` discharges the chain
hypothesis. -/
theorem c3_launch_without_program_resolves_witness :
    ((none : Option String) ≠ none ∨ w3.which "swiftly" ≠ none ∨
      w3.which "xcrun" ≠ none ∨ w3.which "lldb-dap" ≠ none) ∧
    (SwiftDebugConfig.fromJson (Json.obj [("request", Json.str "launch")]) =
      .ok { cwd := none, env := [], program := none, pid := none,
            request := "launch", stop_on_entry := none } ∧
     ∃ b, SwiftExtension.get_dap_binary "Swift"
       (Json.obj [("request", Json.str "launch")]) none w3 = .ok b) :=
  ⟨Or.inr (Or.inl (by simp [w3])),
   c3_launch_without_program_resolves none w3 (Or.inr (Or.inl (by simp [w3])))⟩

/-- C4 counterexample: for kind `Function`, label `"foo"` (no
parenthesis) and no detail, `label_for_completion` returns no label at
all rather than one with code `"func foo() {}"`. -/
theorem c4_counterexample :
    SourceKitLsp.new.label_for_completion
      { label := "foo", kind := some CompletionKind.Function, detail := none } =
      none := rfl

/-- C4 (amended): function-completion labels are synthesized only when
the label contains a parenthesis; for label `"foo()"` with no detail
the code is exactly `"func foo() {}"`, with detail `"Int"` exactly
`"func foo() -> Int {}"`, and for label `"foo"` no label is returned
with or without detail. -/
theorem c4_function_label_codes :
    (SourceKitLsp.new.label_for_completion
      { label := "foo()", kind := some CompletionKind.Function,
        detail := none }).map (fun lbl => lbl.code) =
      some "func foo() \x7b\x7d" ∧
    (SourceKitLsp.new.label_for_completion
      { label := "foo()", kind := some CompletionKind.Function,
        detail := some "Int" }).map (fun lbl => lbl.code) =
      some "func foo() -> Int \x7b\x7d" ∧
    SourceKitLsp.new.label_for_completion
      { label := "foo", kind := some CompletionKind.Function, detail := none } =
      none ∧
    SourceKitLsp.new.label_for_completion
      { label := "foo", kind := some CompletionKind.Function,
        detail := some "Int" } = none :=
  ⟨rfl, rfl, rfl, rfl⟩

/-- A worktree with no binary setting, failing lookups, and a nonempty
shell environment. -/
def w5 : Worktree :=
  { lsp_settings := fun _ => .ok { binary := none, initialization_options := none },
    which := fun _ => none,
    shell_env := [("PATH", "/usr/bin")],
    root_path := "/work" }

/-- C5 counterexample: with no binary setting and a failed lookup, the
fallback command does carry `/usr/bin/xcrun` and `["sourcekit-lsp"]`,
but its environment is the worktree's shell environment, which here is
nonempty — not the empty environment the claim states. -/
theorem c5_counterexample :
    SourceKitLsp.language_server_command "sourcekit-lsp" w5 =
      .ok { command := "/usr/bin/xcrun", args := ["sourcekit-lsp"],
            env := [("PATH", "/usr/bin")] } ∧
    [("PATH", "/usr/bin")] ≠ ([] : List (String × String)) :=
  ⟨rfl, by simp⟩

/-- C5 (amended): with no explicit binary setting and a failed worktree
lookup, `language_server_command` returns the hard-coded
`/usr/bin/xcrun` with the server name as sole argument and the
worktree's shell environment (not an empty environment). -/
theorem c5_fallback_command (language_server_id : String) (w : Worktree)
    (settings : LspSettings)
    (hs : w.lsp_settings language_server_id = .ok settings)
    (hb : (match settings.binary with
           | some binary_settings => binary_settings.path
           | none => none) = none)
    (hw : w.which SourceKitLsp.SERVER_ID = none) :
    SourceKitLsp.language_server_command language_server_id w =
      .ok { command := "/usr/bin/xcrun", args := [SourceKitLsp.SERVER_ID],
            env := w.shell_env } := by
  unfold SourceKitLsp.language_server_command SourceKitLsp.language_server_binary
  rw [hs]
  cases hsb : settings.binary with
  | none => simp [hsb, hw]
  | some binary_settings =>
    rw [hsb] at hb
    dsimp only at hb
    simp [hsb, hb, hw]

/-- C5 witness: the fallback fires on the concrete worktree `w5`. -/
theorem c5_fallback_command_witness :
    SourceKitLsp.language_server_command "sourcekit-lsp" w5 =
      .ok { command := "/usr/bin/xcrun", args := [SourceKitLsp.SERVER_ID],
            env := w5.shell_env } :=
  c5_fallback_command "sourcekit-lsp" w5
    { binary := none, initialization_options := none } rfl rfl rfl

/-- C6: an explicit binary path in the settings is returned verbatim,
whatever the worktree lookup would find; arguments come from the same
setting when present and default to the fixed empty list otherwise. -/
theorem c6_explicit_binary_overrides (language_server_id : String) (w : Worktree)
    (settings : LspSettings) (binary_settings : BinarySettings) (path : String)
    (hs : w.lsp_settings language_server_id = .ok settings)
    (hb : settings.binary = some binary_settings)
    (hp : binary_settings.path = some path) :
    SourceKitLsp.language_server_command language_server_id w =
      .ok { command := path,
            args := binary_settings.arguments.getD SourceKitLsp.get_executable_args,
            env := w.shell_env } := by
  unfold SourceKitLsp.language_server_command SourceKitLsp.language_server_binary
  rw [hs]
  simp [hb, hp]

/-- A worktree whose settings pin an explicit binary path while the
lookup would discover a different one. -/
def w6 : Worktree :=
  { lsp_settings := fun _ => .ok
      { binary := some { path := some "/opt/sourcekit-lsp",
                         arguments := some ["--stdio"] },
        initialization_options := none },
    which := fun _ => some "/discovered/sourcekit-lsp",
    shell_env := [],
    root_path := "/work" }

/-- C6 witness: on `w6` the configured path wins over the discovered
one and the configured arguments are used. -/
theorem c6_explicit_binary_overrides_witness :
    SourceKitLsp.language_server_command "sourcekit-lsp" w6 =
      .ok { command := "/opt/sourcekit-lsp",
            args := (some ["--stdio"] : Option (List String)).getD
              SourceKitLsp.get_executable_args,
            env := w6.shell_env } :=
  c6_explicit_binary_overrides "sourcekit-lsp" w6
    { binary := some { path := some "/opt/sourcekit-lsp",
                       arguments := some ["--stdio"] },
      initialization_options := none }
    { path := some "/opt/sourcekit-lsp", arguments := some ["--stdio"] }
    "/opt/sourcekit-lsp" rfl rfl rfl

/-- C7: for adapter `"Swift"` and a configuration that parses with a
recognized `request`, the adapter binary is resolved by trying, in
order with the first success winning: the user-provided path (no
arguments), `swiftly` via worktree lookup (arguments
`["run", "lldb-dap"]`), `xcrun` (argument `["lldb-dap"]`), bare
`lldb-dap` via worktree lookup (no arguments); if all four miss, the
call fails with the "Could not find lldb-dap" error. -/
theorem c7_adapter_discovery_order (config : Json) (user : Option String)
    (w : Worktree) (cfg : SwiftDebugConfig)
    (hp : SwiftDebugConfig.fromJson config = .ok cfg)
    (hr : cfg.request = "launch" ∨ cfg.request = "attach") :
    (∀ path, user = some path →
      ∃ b, SwiftExtension.get_dap_binary "Swift" config user w = .ok b ∧
        b.command = some path ∧ b.arguments = []) ∧
    (∀ swiftly, user = none → w.which "swiftly" = some swiftly →
      ∃ b, SwiftExtension.get_dap_binary "Swift" config user w = .ok b ∧
        b.command = some swiftly ∧ b.arguments = ["run", "lldb-dap"]) ∧
    (∀ xcrun, user = none → w.which "swiftly" = none →
      w.which "xcrun" = some xcrun →
      ∃ b, SwiftExtension.get_dap_binary "Swift" config user w = .ok b ∧
        b.command = some xcrun ∧ b.arguments = ["lldb-dap"]) ∧
    (∀ lldb_dap, user = none → w.which "swiftly" = none →
      w.which "xcrun" = none → w.which "lldb-dap" = some lldb_dap →
      ∃ b, SwiftExtension.get_dap_binary "Swift" config user w = .ok b ∧
        b.command = some lldb_dap ∧ b.arguments = []) ∧
    (user = none → w.which "swiftly" = none → w.which "xcrun" = none →
      w.which "lldb-dap" = none →
      SwiftExtension.get_dap_binary "Swift" config user w =
        .error "Could not find lldb-dap") := by
  obtain ⟨k, hrw⟩ :
      ∃ k, SwiftExtension.get_dap_binary "Swift" config user w =
        match (match user with
               | some path => some (path, ([] : List String))
               | none =>
                 match w.which "swiftly" with
                 | some swiftly => some (swiftly, ["run", "lldb-dap"])
                 | none =>
                   match w.which "xcrun" with
                   | some xcrun => some (xcrun, ["lldb-dap"])
                   | none =>
                     match w.which "lldb-dap" with
                     | some lldb_dap => some (lldb_dap, ([] : List String))
                     | none => none) with
        | none => .error "Could not find lldb-dap"
        | some (command, arguments) =>
          .ok { command := some command,
                arguments,
                envs := cfg.env,
                cwd := some (cfg.cwd.getD w.root_path),
                connection := none,
                request_args := { configuration := config, request := k } } := by
    rcases hr with h | h
    · exact ⟨_, get_dap_binary_chain config user w cfg _ hp (Or.inl ⟨h, rfl⟩)⟩
    · exact ⟨_, get_dap_binary_chain config user w cfg _ hp (Or.inr ⟨h, rfl⟩)⟩
  rw [hrw]
  refine ⟨?_, ?_, ?_, ?_, ?_⟩
  · intro path h1
    rw [h1]
    exact ⟨_, rfl, rfl, rfl⟩
  · intro swiftly h1 h2
    rw [h1, h2]
    exact ⟨_, rfl, rfl, rfl⟩
  · intro xcrun h1 h2 h3
    rw [h1, h2, h3]
    exact ⟨_, rfl, rfl, rfl⟩
  · intro lldb_dap h1 h2 h3 h4
    rw [h1, h2, h3, h4]
    exact ⟨_, rfl, rfl, rfl⟩
  · intro h1 h2 h3 h4
    rw [h1, h2, h3, h4]

/-- C7 witness: on the concrete worktree `w3` (only `swiftly` found), a
user-provided path wins the first tier. -/
theorem c7_adapter_discovery_order_witness :
    ∃ b, SwiftExtension.get_dap_binary "Swift"
      (Json.obj [("request", Json.str "launch"), ("program", Json.str "/bin/app")])
      (some "/custom/lldb-dap") w3 = .ok b ∧
      b.command = some "/custom/lldb-dap" ∧ b.arguments = [] :=
  (c7_adapter_discovery_order
    (Json.obj [("request", Json.str "launch"), ("program", Json.str "/bin/app")])
    (some "/custom/lldb-dap") w3
    { cwd := none, env := [], program := some "/bin/app", pid := none,
      request := "launch", stop_on_entry := none }
    rfl (Or.inl rfl)).1 "/custom/lldb-dap" rfl

/-- Length of the synthetic declaration keyword the label strategy for
the given completion kind prepends to the snippet (`"func"` for
functions, `"var"` for values and variables, `"typealias"` for type
parameters, `"enum"` for enum members); zero for kinds whose strategy
synthesizes no keyword. -/
def syntheticKeywordLen : CompletionKind → Nat
  | .Function => 4
  | .Value => 3
  | .Variable => 3
  | .TypeParameter => 9
  | .EnumMember => 4
  | _ => 0

theorem str_ne_empty_of_length_pos {s : String} (h : 0 < s.length) : s ≠ "" := by
  intro he
  rw [he] at h
  exact absurd h (by decide)

theorem str_length_pos_left {a : String} (b : String) (ha : 0 < a.length) :
    0 < (a ++ b).length := by
  rw [String.length_append]
  omega

/-- C8: every label returned by `label_for_completion` has a filter
range that is a valid sub-range of the synthesized code (of the
original label text when no snippet is synthesized), and every
highlighted code range is a valid sub-range of the code that starts at
or beyond the end of the synthetic declaration keyword. -/
theorem c8_label_ranges (completion : Completion) (lbl : CodeLabel)
    (h : SourceKitLsp.new.label_for_completion completion = some lbl) :
    (lbl.filter_range.1 ≤ lbl.filter_range.2 ∧
      lbl.filter_range.2 ≤
        (if lbl.code = "" then completion.label.length else lbl.code.length)) ∧
    (∀ span ∈ lbl.spans, ∀ range, span = CodeLabelSpan.code_range range →
      (∀ kind, completion.kind = some kind → syntheticKeywordLen kind ≤ range.1) ∧
      range.1 ≤ range.2 ∧ range.2 ≤ lbl.code.length) := by
  obtain ⟨label, kindOpt, detail⟩ := completion
  cases kindOpt with
  | none => simp [SourceKitLsp.label_for_completion] at h
  | some kind =>
    cases kind
    case Class | Enum | Interface | Keyword | Module | Struct =>
      simp only [SourceKitLsp.label_for_completion, Option.some.injEq] at h
      subst h
      refine ⟨⟨Nat.zero_le _, ?_⟩, ?_⟩
      · rw [if_pos rfl]
      · intro span hs range heq
        simp only [List.mem_singleton] at hs
        subst hs
        simp at heq
    case EnumMember =>
      simp only [SourceKitLsp.label_for_completion, Option.some.injEq] at h
      subst h
      have h17 : ("enum Enum \x7b case " : String).length = 17 := rfl
      have h2 : (" \x7d" : String).length = 2 := rfl
      have hne : ("enum Enum \x7b case " ++ label ++ " \x7d" : String) ≠ "" :=
        str_ne_empty_of_length_pos
          (str_length_pos_left _ (str_length_pos_left _ (by decide)))
      refine ⟨⟨Nat.zero_le _, ?_⟩, ?_⟩
      · rw [if_neg hne]
        simp only [String.length_append]
        cases hf : strFind label '(' with
        | none => simp only [hf, Option.getD]; omega
        | some paren =>
          have := strFind_lt hf
          simp only [hf, Option.getD]
          omega
      · intro span hs range heq
        simp only [List.mem_singleton] at hs
        subst hs
        simp only [CodeLabelSpan.code_range.injEq] at heq
        subst heq
        refine ⟨?_, ?_, ?_⟩
        · intro k hk
          injection hk with hk
          subst hk
          simp [syntheticKeywordLen, h17]
        · simp
        · simp only [String.length_append]
          omega
    case Function =>
      simp only [SourceKitLsp.label_for_completion] at h
      cases hf : strFind label '(' with
      | none => rw [hf] at h; simp at h
      | some paren =>
        rw [hf] at h
        simp only [Option.some.injEq] at h
        subst h
        have h5 : ("func " : String).length = 5 := rfl
        have h3 : (" \x7b\x7d" : String).length = 3 := rfl
        have hfl := strFind_lt hf
        have hne : ("func " ++ label ++
            (match detail with
             | some d => if d.isEmpty then "" else " -> " ++ d
             | none => "") ++ " \x7b\x7d" : String) ≠ "" :=
          str_ne_empty_of_length_pos
            (str_length_pos_left _ (str_length_pos_left _
              (str_length_pos_left _ (by decide))))
        refine ⟨⟨Nat.zero_le _, ?_⟩, ?_⟩
        · rw [if_neg hne]
          simp only [String.length_append]
          omega
        · intro span hs range heq
          simp only [List.mem_singleton] at hs
          subst hs
          simp only [CodeLabelSpan.code_range.injEq] at heq
          subst heq
          refine ⟨?_, ?_, ?_⟩
          · intro k hk
            injection hk with hk
            subst hk
            simp [syntheticKeywordLen, h5]
          · simp only [String.length_append]
            omega
          · simp only [String.length_append]
            omega
    case TypeParameter =>
      simp only [SourceKitLsp.label_for_completion] at h
      cases hd : detail with
      | none => rw [hd] at h; simp at h
      | some d =>
        rw [hd] at h
        simp only [Option.some.injEq] at h
        subst h
        have h10 : ("typealias " : String).length = 10 := rfl
        have h3 : (" = " : String).length = 3 := rfl
        have hne : ("typealias " ++ label ++ " = " ++ d : String) ≠ "" :=
          str_ne_empty_of_length_pos
            (str_length_pos_left _ (str_length_pos_left _
              (str_length_pos_left _ (by decide))))
        refine ⟨⟨Nat.zero_le _, ?_⟩, ?_⟩
        · rw [if_neg hne]
          simp only [String.length_append]
          omega
        · intro span hs range heq
          simp only [List.mem_singleton] at hs
          subst hs
          simp only [CodeLabelSpan.code_range.injEq] at heq
          subst heq
          refine ⟨?_, ?_, ?_⟩
          · intro k hk
            injection hk with hk
            subst hk
            simp [syntheticKeywordLen, h10]
          · simp only [String.length_append]
            omega
          · simp only [String.length_append]
            omega
    case Value =>
      simp only [SourceKitLsp.label_for_completion, Option.some.injEq] at h
      subst h
      have h12 : ("var variable" : String).length = 12 := rfl
      have h3 : (" = " : String).length = 3 := rfl
      have hne : ("var variable" ++
          (match detail with
           | some d => if d.isEmpty then "" else ": " ++ d
           | none => "") ++ " = " ++ label : String) ≠ "" :=
        str_ne_empty_of_length_pos
          (str_length_pos_left _ (str_length_pos_left _
            (str_length_pos_left _ (by decide))))
      refine ⟨⟨Nat.zero_le _, ?_⟩, ?_⟩
      · rw [if_neg hne]
        simp only [String.length_append]
        omega
      · intro span hs range heq
        simp only [List.mem_singleton] at hs
        subst hs
        simp only [CodeLabelSpan.code_range.injEq] at heq
        subst heq
        refine ⟨?_, ?_, ?_⟩
        · intro k hk
          injection hk with hk
          subst hk
          simp only [syntheticKeywordLen, String.length_append]
          omega
        · simp only [String.length_append]
          omega
        · simp only [String.length_append]
          omega
    case Variable =>
      simp only [SourceKitLsp.label_for_completion] at h
      cases hd : detail with
      | none => rw [hd] at h; simp at h
      | some d =>
        rw [hd] at h
        simp only [Option.some.injEq] at h
        subst h
        have h4 : ("var " : String).length = 4 := rfl
        have h2 : (": " : String).length = 2 := rfl
        have hne : ("var " ++ label ++ ": " ++ d : String) ≠ "" :=
          str_ne_empty_of_length_pos
            (str_length_pos_left _ (str_length_pos_left _
              (str_length_pos_left _ (by decide))))
        refine ⟨⟨Nat.zero_le _, ?_⟩, ?_⟩
        · rw [if_neg hne]
          simp only [String.length_append]
          omega
        · intro span hs range heq
          simp only [List.mem_singleton] at hs
          subst hs
          simp only [CodeLabelSpan.code_range.injEq] at heq
          subst heq
          refine ⟨?_, ?_, ?_⟩
          · intro k hk
            injection hk with hk
            subst hk
            simp [syntheticKeywordLen, h4]
          · simp only [String.length_append]
            omega
          · simp only [String.length_append]
            omega
    all_goals simp [SourceKitLsp.label_for_completion] at h

/-- The enum-case completion used as the C8 witness input. -/
def enumCaseCompletion : Completion :=
  { label := "bar(x:)", kind := some CompletionKind.EnumMember, detail := none }

/-- The label `label_for_completion` synthesizes for
`enumCaseCompletion`. -/
def enumCaseLabel : CodeLabel :=
  { code := "enum Enum \x7b case bar(x:) \x7d",
    spans := [CodeLabelSpan.code_range (17, 24)],
    filter_range := (0, 3) }

/-- C8 witness: the invariant at the concrete enum-case completion
`bar(x:)`. -/
theorem c8_label_ranges_witness :
    SourceKitLsp.new.label_for_completion enumCaseCompletion = some enumCaseLabel ∧
    ((enumCaseLabel.filter_range.1 ≤ enumCaseLabel.filter_range.2 ∧
      enumCaseLabel.filter_range.2 ≤
        (if enumCaseLabel.code = "" then enumCaseCompletion.label.length
         else enumCaseLabel.code.length)) ∧
     (∀ span ∈ enumCaseLabel.spans, ∀ range,
       span = CodeLabelSpan.code_range range →
       (∀ kind, enumCaseCompletion.kind = some kind →
         syntheticKeywordLen kind ≤ range.1) ∧
       range.1 ≤ range.2 ∧ range.2 ≤ enumCaseLabel.code.length)) :=
  ⟨rfl, c8_label_ranges enumCaseCompletion enumCaseLabel rfl⟩

end SwiftExt
